import Mathlib

/-!
Verification development for the nfs-dq-backend data-quality engine.

This file gives a shallow embedding of the column type/format classification
engine (`app/inconsistency.py`) and the row-reconciliation statistics engine
(`app/enrichment/enrichment_calculator.py`, models in
`app/enrichment/enrichment_calculation_models.py`), and proves or refutes the
frozen specification claims about them.

Modelling conventions:
  * Python cell values (pandas object columns) are a tagged union `Cell`
    (null / text / int / bool); `Cell.pyStr` is Python `str()`.
  * Machine floats used for ratios and percentages are modelled as `ℚ`.
    A Python comparison `count / total >= threshold` is embedded as
    `ratioGE threshold count total`, the cross-multiplied form of
    `threshold ≤ count / total`; `ratioGE_eq_div` below proves the two forms
    agree whenever the denominator is positive (Python would raise on a zero
    denominator, which no reachable call produces for thresholds in `(0, 1]`).
    The float literals `0.5` and `0.8` are the normalised rationals
    `ratHalf` and `ratPoint8` (see `ratHalf_eq_div`, `ratPoint8_eq_div`).
  * Calls into external libraries (the `re` regex engine for URL_RE, EMAIL_RE
    and PHONE_RE, `urllib.parse` for URL signatures, the `phonenumbers`
    library, and pandas `to_datetime` / `to_numeric` per-value parsing) are
    abstracted as fields of a `Matchers` bundle; every piece of logic written
    in the repository itself (cascade order, ratio thresholds, signature
    derivation, counting, reconciliation) is embedded concretely.
  * Python string primitives (`strip`, `lower`, `in`, `startswith`,
    `endswith`) are given structural definitions over the character list.
  * `uuid4` identifiers are modelled as fresh natural-number ids (the only
    property the code relies on is freshness/distinctness).
-/

namespace NfsDq

/-- A raw cell of a loosely typed pandas column: missing marker (None/NaN),
a string, an integer, or a boolean. -/
inductive Cell where
  | null
  | text (s : String)
  | intV (n : Int)
  | boolV (b : Bool)
deriving DecidableEq, Repr

/-- Python `str(value)` on a cell (`str(None) = "None"`, `str(True) = "True"`). -/
def Cell.pyStr : Cell → String
  | .null => "None"
  | .text s => s
  | .intV n => toString n
  | .boolV b => if b then "True" else "False"

/-- `pd.notna(value)`: everything except the missing marker. -/
def Cell.notna : Cell → Bool
  | .null => false
  | _ => true

/-- Python `str.strip()`: drop leading and trailing whitespace. -/
def pyStrip (s : String) : String :=
  String.mk (((s.toList.dropWhile Char.isWhitespace).reverse.dropWhile
    Char.isWhitespace).reverse)

/-- Python `str.lower()`. -/
def pyLower (s : String) : String :=
  String.mk (s.toList.map Char.toLower)

/-- Python `ch in s` for a single character. -/
def chContains (s : String) (c : Char) : Bool :=
  s.toList.contains c

/-- Python `s.startswith(p)`. -/
def strStartsWith (s p : String) : Bool :=
  p.toList.isPrefixOf s.toList

/-- Python `s.endswith(p)`. -/
def strEndsWith (s p : String) : Bool :=
  List.isSuffixOf p.toList s.toList

/-- Python `pat in s` (substring containment). -/
def strHasSub (s pat : String) : Bool :=
  s.toList.tails.any (fun t => pat.toList.isPrefixOf t)

/-- `pd.notna(v) and str(v).strip() != ""`: the non-empty-value rule used by
the reconciliation engine. -/
def Cell.hasValue (c : Cell) : Bool :=
  c.notna && !(pyStrip c.pyStr == "")

/-- `series.dropna().astype(str).str.strip()`: drop nulls, stringify, trim. -/
def cleanList (raw : List Cell) : List String :=
  (raw.filter Cell.notna).map (fun c => pyStrip c.pyStr)

/-- `s.replace(",", "").replace("_", "")`: strip thousands separators. -/
def stripThousands (s : String) : String :=
  String.mk (s.toList.filter (fun c => !(c == ',') && !(c == '_')))

/-- Index of the last occurrence of `c` in `l` (Python `str.rindex`); only
meaningful when `c` occurs in `l`. -/
def lastIdx (l : List Char) (c : Char) : Nat :=
  l.length - 1 - (l.reverse.indexOf c)

/-- The float literal `0.5`, as an already-normalised rational. -/
def ratHalf : ℚ := ⟨1, 2, by norm_num, by norm_num⟩

/-- The float literal `0.8` (the default classification threshold), as an
already-normalised rational. -/
def ratPoint8 : ℚ := ⟨4, 5, by norm_num, by norm_num⟩

/-- Python `num / den >= t` on floats, written multiplicatively over ℤ so
that it evaluates by kernel reduction; `ratioGE_eq_div` proves it equal to
`t ≤ (num : ℚ) / (den : ℚ)` whenever `0 < den`. -/
def ratioGE (t : ℚ) (num den : Nat) : Bool :=
  t.num * (den : Int) ≤ (num : Int) * (t.den : Int)

/-- The keys of `BOOLEAN_VALUES` (`inconsistency.py`). -/
def booleanKeys : List String :=
  ["true", "false", "yes", "no", "y", "n", "1", "0", "on", "off", "t", "f"]

/-- `DATE_FORMATS` from `inconsistency.py`: the fixed ordered list of explicit
date/time format strings. -/
def dateFormats : List String :=
  ["%Y-%m-%d", "%Y-%m-%d %H:%M:%S", "%Y-%m-%dT%H:%M:%S", "%Y-%m-%d %H:%M",
   "%Y-%m-%dT%H:%M",
   "%m/%d/%Y", "%m/%d/%Y %H:%M:%S", "%m/%d/%Y %H:%M",
   "%m-%d-%Y", "%m-%d-%Y %H:%M:%S", "%m-%d-%Y %H:%M",
   "%d/%m/%Y", "%d/%m/%Y %H:%M:%S", "%d/%m/%Y %H:%M",
   "%d-%m-%Y", "%d-%m-%Y %H:%M:%S", "%d-%m-%Y %H:%M",
   "%Y/%m/%d", "%Y/%m/%d %H:%M:%S", "%Y/%m/%d %H:%M",
   "%Y%m%d", "%m%d%Y", "%d%m%Y",
   "%Y %b %d", "%Y %B %d", "%d %b %Y", "%d %B %Y"]

/-- `_get_phone_format` (`inconsistency.py`): structural signature of a phone
number (plus sign, space after country code, parentheses, separator counts,
extension marker). -/
def getPhoneFormat (s : String) : String :=
  let l := s.toList
  let plusPart : List String :=
    if strStartsWith s "+" then
      let rest := l.drop 1
      let spacePart : List String :=
        if s.length > 1 && (match rest with | c :: _ => c.isWhitespace | [] => false) then
          match rest.dropWhile Char.isDigit with
          | c :: _ => if c == ' ' then ["space_after_country"] else []
          | [] => []
        else []
      "plus" :: spacePart
    else []
  let parensPart : List String :=
    if chContains s '(' && chContains s ')' then ["parens"] else []
  let numDashes := l.count '-'
  let numDots := l.count '.'
  let numSpaces := l.count ' '
  let sepPart : List String :=
    (if numDashes > 0 then ["dash" ++ toString numDashes] else []) ++
    (if numDots > 0 then ["dot" ++ toString numDots] else []) ++
    (if numSpaces > 0 then ["space" ++ toString numSpaces] else []) ++
    (if numDashes == 0 && numDots == 0 && numSpaces == 0 then ["nosep"] else [])
  let extPart : List String :=
    if strHasSub (pyLower s) "#" || strHasSub (pyLower s) "x" ||
        strHasSub (pyLower s) "ext" then
      ["ext"]
    else []
  let components := plusPart ++ parensPart ++ sepPart ++ extPart
  if components.isEmpty then "plain" else String.intercalate "|" components

/-- `_get_boolean_format` (`inconsistency.py`). -/
def getBooleanFormat (s : String) : String :=
  let sl := pyLower s
  if sl == "true" || sl == "false" then "true_false"
  else if sl == "yes" || sl == "no" then "yes_no"
  else if sl == "y" || sl == "n" then "y_n"
  else if sl == "1" || sl == "0" then "1_0"
  else if sl == "on" || sl == "off" then "on_off"
  else if sl == "t" || sl == "f" then "t_f"
  else "unknown"

/-- `_get_integer_format` (`inconsistency.py`). -/
def getIntegerFormat (s : String) : String :=
  if chContains s ',' then "comma_separated"
  else if chContains s '_' then "underscore_separated"
  else "plain"

/-- `_get_float_format` (`inconsistency.py`). -/
def getFloatFormat (s : String) : String :=
  let l := s.toList
  let thousandsPart : List String :=
    if chContains s ',' then
      if chContains s '.' && lastIdx l '.' > lastIdx l ',' then ["comma_thousands"]
      else ["comma_decimal"]
    else if chContains s '_' then ["underscore_thousands"]
    else []
  let decimalPart : List String :=
    if chContains s '.' && !(thousandsPart.contains "comma_decimal") then ["period_decimal"]
    else []
  let sciPart : List String :=
    if chContains (pyLower s) 'e' then ["scientific"] else []
  let components := thousandsPart ++ decimalPart ++ sciPart
  if components.isEmpty then "plain" else String.intercalate "|" components

/-- Abstraction of the external validity predicates and parsers:
`re` matching of URL_RE / EMAIL_RE / PHONE_RE, `urllib.parse`-based URL
signatures, `phonenumbers` parsing/validation, and pandas
`to_datetime(format=...)` / `to_datetime` / `to_numeric` per-value parsing.
All repository-written logic is embedded concretely elsewhere. -/
structure Matchers where
  urlMatch : String → Bool
  urlFormat : String → String
  emailMatch : String → Bool
  phoneMatch : String → Bool
  phonenumbersAvailable : Bool
  phoneValid : String → Bool
  explicitDateParse : String → String → Bool
  autoDateParse : String → Bool
  toNumeric : String → Option ℚ

/-- Python `"-" in date_str[-6:]` and friends: the last six characters. -/
def lastSix (s : String) : List Char :=
  let l := s.toList
  l.drop (l.length - 6)

/-- The URL_RE matches of a cleaned column. -/
def urlMatchesL (M : Matchers) (s : List String) : List String :=
  s.filter M.urlMatch

/-- The EMAIL_RE matches of a cleaned column. -/
def emailMatchesL (M : Matchers) (s : List String) : List String :=
  s.filter M.emailMatch

/-- The PHONE_RE-plausible values of a cleaned column. -/
def phonePlausible (M : Matchers) (s : List String) : List String :=
  s.filter M.phoneMatch

/-- The plausible values that the phonenumbers library also validates
(`phone_matches & valid_phones`). -/
def phoneValidOnes (M : Matchers) (s : List String) : List String :=
  (phonePlausible M s).filter M.phoneValid

/-- The values parsed by pandas auto date parsing (`parsed.notna()`). -/
def dateParsed (M : Matchers) (s : List String) : List String :=
  s.filter M.autoDateParse

/-- The values accepted by the boolean vocabulary. -/
def boolMatchesL (s : List String) : List String :=
  s.filter (fun v => booleanKeys.contains (pyLower v))

/-- The values that parse to whole numbers after separator stripping. -/
def intMatchesL (M : Matchers) (s : List String) : List String :=
  s.filter (fun v =>
    match M.toNumeric (stripThousands v) with
    | some q => q.den == 1
    | none => false)

/-- The values that parse to non-whole numbers after separator stripping. -/
def floatMatchesL (M : Matchers) (s : List String) : List String :=
  s.filter (fun v =>
    match M.toNumeric (stripThousands v) with
    | some q => !(q.den == 1)
    | none => false)

/-- The explicit-format loop of `_detect_date_format`: best format string and
its parse-success count (strictly better count wins, earlier format kept on
ties). -/
def bestExplicitFormat (M : Matchers) (s : List String) : Option String × Nat :=
  dateFormats.foldl
    (fun best fmt =>
      let valid := s.countP (fun v => M.explicitDateParse fmt v)
      if valid > best.2 then (some fmt, valid) else best)
    (none, 0)

/-- `_detect_date_format` (`inconsistency.py`): explicit formats first (50%
coverage), then pandas auto-parsing (50% coverage) with a coarse
separator/time/timezone fingerprint from the first ten parsed values. -/
def detectDateFormatFull (M : Matchers) (s : List String) : Option String :=
  let best := bestExplicitFormat M s
  if ratioGE ratHalf best.2 s.length then best.1
  else
    let valid := dateParsed M s
    if !(ratioGE ratHalf valid.length s.length) then none
    else
      let sample := valid.take 10
      let hasSlash := sample.any (fun v => chContains v '/')
      let hasDash := sample.any (fun v => chContains v '-')
      let hasTime := sample.any (fun v => chContains v ':')
      let hasTz := sample.any (fun v =>
        strEndsWith v "Z" || (lastSix v).contains '+' || (lastSix v).contains '-')
      let sepPart : List String :=
        if hasSlash || hasDash then
          ["sep:" ++ ((if hasDash then "-" else "") ++ (if hasSlash then "/" else ""))]
        else []
      let parts := sepPart ++ (if hasTime then ["time"] else []) ++
        (if hasTz then ["tz"] else [])
      if parts.isEmpty then some "standard" else some (String.intercalate "|" parts)

/-- Distinct-count (`.unique()` then `len`). -/
def distinctCount (l : List String) : Nat :=
  l.dedup.length

/-- Float stage of `_detect_series`: float check, then the string fallback. -/
def detectFloatStage (M : Matchers) (s : List String) (t : ℚ) :
    Option String × Option Nat :=
  if ratioGE t (floatMatchesL M s).length s.length then
    (some "float", some (distinctCount ((floatMatchesL M s).map getFloatFormat)))
  else if s.length > 0 then (some "string", none)
  else (none, none)

/-- Integer stage of `_detect_series` (whole-number parse after stripping
thousands separators). -/
def detectIntegerStage (M : Matchers) (s : List String) (t : ℚ) :
    Option String × Option Nat :=
  if ratioGE t (intMatchesL M s).length s.length then
    (some "integer", some (distinctCount ((intMatchesL M s).map getIntegerFormat)))
  else detectFloatStage M s t

/-- Boolean stage of `_detect_series` (case-insensitive vocabulary match). -/
def detectBooleanStage (M : Matchers) (s : List String) (t : ℚ) :
    Option String × Option Nat :=
  if ratioGE t (boolMatchesL s).length s.length then
    (some "boolean", some (distinctCount ((boolMatchesL s).map getBooleanFormat)))
  else detectIntegerStage M s t

/-- Date stage of `_detect_series`: `_detect_date_format` gate (threshold-free
50% rule), pandas auto-parse ratio against the threshold, format count from
per-value `_detect_date_format` on the first 100 parsed values. -/
def detectDateStage (M : Matchers) (s : List String) (t : ℚ) :
    Option String × Option Nat :=
  if (detectDateFormatFull M s).isSome then
    if ratioGE t (dateParsed M s).length s.length then
      (some "date", some
        (((((dateParsed M s).take 100).map
          (fun x => detectDateFormatFull M [x])).dedup).filter Option.isSome).length)
    else detectBooleanStage M s t
  else detectBooleanStage M s t

/-- Phone stage of `_detect_series`: regex plausibility ratio, then (when the
phonenumbers library is available) validity ratio among the plausible values;
an inner failure falls through to the date stage. -/
def detectPhoneStage (M : Matchers) (s : List String) (t : ℚ) :
    Option String × Option Nat :=
  if ratioGE t (phonePlausible M s).length s.length then
    if M.phonenumbersAvailable then
      if ratioGE t (phoneValidOnes M s).length (phonePlausible M s).length then
        (some "phone", some (distinctCount ((phoneValidOnes M s).map getPhoneFormat)))
      else detectDateStage M s t
    else (some "phone", some (distinctCount ((phonePlausible M s).map getPhoneFormat)))
  else detectDateStage M s t

/-- Email stage of `_detect_series` (format count intentionally `None`). -/
def detectEmailStage (M : Matchers) (s : List String) (t : ℚ) :
    Option String × Option Nat :=
  if ratioGE t (emailMatchesL M s).length s.length then (some "email", none)
  else detectPhoneStage M s t

/-- URL stage of `_detect_series`. -/
def detectUrlStage (M : Matchers) (s : List String) (t : ℚ) :
    Option String × Option Nat :=
  if ratioGE t (urlMatchesL M s).length s.length then
    (some "url", some (distinctCount ((urlMatchesL M s).map M.urlFormat)))
  else detectEmailStage M s t

/-- `_detect_series` (`inconsistency.py`): clean the column, then try the
matcher families in the fixed priority order. -/
def detectSeries (M : Matchers) (raw : List Cell) (t : ℚ) :
    Option String × Option Nat :=
  let s := cleanList raw
  if s.isEmpty then (none, none) else detectUrlStage M s t

/-- `ClassifiedColumn` (`inconsistency.py`). -/
structure ClassifiedColumn where
  type : String
  format_count : Nat := 1
deriving DecidableEq, Repr

/-- One column of `analyze_inconsistency` (`inconsistency.py`): a detected
type keeps its format count (`None` becomes 1), an undetected column falls
back to `string` with format count 1. -/
def analyzeColumn (M : Matchers) (raw : List Cell) (t : ℚ) : ClassifiedColumn :=
  match detectSeries M raw t with
  | (some ty, fc) => ⟨ty, fc.getD 1⟩
  | (none, _) => ⟨"string", 1⟩

/-- Rank of a detected type in the fixed priority order
url → email → phone → date → boolean → integer → float → string. -/
def typeRank (o : Option String) : Nat :=
  if o = some "url" then 0
  else if o = some "email" then 1
  else if o = some "phone" then 2
  else if o = some "date" then 3
  else if o = some "boolean" then 4
  else if o = some "integer" then 5
  else if o = some "float" then 6
  else 7

/-- `_count_phone_formats` (`enrichment_calculator.py`): structural phone
signatures (country-code style, parentheses, separator set, extension marker),
clamped below at 1. -/
def countPhoneFormats (phoneData : List String) : Nat :=
  let sigs := phoneData.foldl
    (fun (acc : List String) phone =>
      if pyStrip phone == "" then acc
      else
        let p := pyStrip phone
        let ccPart :=
          if strStartsWith p "+" then "country_code"
          else if strStartsWith p "00" then "intl_prefix"
          else "domestic"
        let parensPart :=
          if chContains p '(' && chContains p ')' then "area_parens" else "no_parens"
        let seps : List String :=
          (if chContains p '-' then ["dash"] else []) ++
          (if chContains p '.' then ["dot"] else []) ++
          (if chContains p ' ' then ["space"] else [])
        let sepPart :=
          if seps.isEmpty then "no_sep" else "sep_" ++ String.intercalate "_" seps
        let extPart : List String :=
          if strHasSub (pyLower p) "ext" || strHasSub (pyLower p) "x" ||
              strHasSub (pyLower p) "#" then ["has_ext"]
          else []
        let sig := String.intercalate "|" ([ccPart, parensPart, sepPart] ++ extPart)
        if acc.contains sig then acc else acc ++ [sig])
    []
  max 1 sigs.length

/-- `_count_date_formats` (`enrichment_calculator.py`): coarse date signatures
(first separator found, time component, timezone marker), clamped below at 1. -/
def countDateFormats (dateData : List String) : Nat :=
  let sigs := dateData.foldl
    (fun (acc : List String) dateVal =>
      if pyStrip dateVal == "" then acc
      else
        let d := pyStrip dateVal
        let sepPart :=
          if chContains d '/' then "slash_sep"
          else if chContains d '-' then "dash_sep"
          else if chContains d '.' then "dot_sep"
          else "no_sep"
        let timePart := if chContains d ':' then "has_time" else "date_only"
        let tzPart : List String :=
          if strEndsWith d "Z" || (lastSix d).contains '+' || d.toList.count '-' > 2 then
            ["has_tz"]
          else []
        let sig := String.intercalate "|" ([sepPart, timePart] ++ tzPart)
        if acc.contains sig then acc else acc ++ [sig])
    []
  max 1 sigs.length

/-- `_calculate_column_formats` (`enrichment_calculator.py`): clean the column;
empty means `(None, 1)`; otherwise classify via `analyze_inconsistency` at the
default threshold 0.8 and post-process the format count per detected type
(phone and date recounted by the local signature functions, url/email counted
as distinct values capped at 10, all other types kept as classified).  The
single-column frame always contains the column, so the final source
`return "string", 1` fallback is unreachable. -/
def calculateColumnFormats (M : Matchers) (raw : List Cell) : Option String × Nat :=
  let cleanData := cleanList raw
  if cleanData.isEmpty then (none, 1)
  else
    let cls := analyzeColumn M raw ratPoint8
    if cls.type == "phone" then (some "phone", countPhoneFormats cleanData)
    else if cls.type == "date" then (some "date", countDateFormats cleanData)
    else if cls.type == "url" || cls.type == "email" then
      (some cls.type, min (distinctCount cleanData) 10)
    else (some cls.type, cls.format_count)

/-- `ColumnComparisonStatsCalculation` (`enrichment_calculation_models.py`),
with the `uuid4` linkage field modelled as a natural number. -/
structure ColumnComparisonStats where
  column_mapping_id : Nat := 0
  discarded_invalid_data : Nat := 0
  added_new_data : Nat := 0
  fixed_data : Nat := 0
  good_data : Nat := 0
  not_found : Nat := 0
  correct_values_before : Nat := 0
  correct_values_after : Nat := 0
  correct_percentage_before : ℚ := 0
  correct_percentage_after : ℚ := 0
  crm_data_type : Option String := none
  crm_format_count : Nat := 1
  export_data_type : Option String := none
  export_format_count : Nat := 1
deriving DecidableEq, Repr

/-- Mutable state of the row-by-row comparison loop in
`_calculate_column_comparison_stats`: the four incremented stat counters, the
local `unchanged_records` counter, and the caller-supplied
`modified_records` set. -/
structure LoopState where
  discarded : Nat
  added : Nat
  fixed : Nat
  good : Nat
  unchanged : Nat
  modified : Finset Nat

/-- One iteration of the row loop: the exact branch chain of
`_calculate_column_comparison_stats` (the final `elif not crm and not export`
is the only remaining case and is written as `else`). -/
def rowStep (crmVal exportVal : Cell) (idx : Nat) (st : LoopState) : LoopState :=
  if crmVal.hasValue && !exportVal.hasValue then
    { st with discarded := st.discarded + 1, modified := insert idx st.modified }
  else if !crmVal.hasValue && exportVal.hasValue then
    { st with added := st.added + 1, modified := insert idx st.modified }
  else if crmVal.hasValue && exportVal.hasValue then
    if pyStrip crmVal.pyStr == pyStrip exportVal.pyStr then
      { st with good := st.good + 1, unchanged := st.unchanged + 1 }
    else
      { st with fixed := st.fixed + 1, modified := insert idx st.modified }
  else
    { st with unchanged := st.unchanged + 1 }

/-- The full row loop (`for idx in df.index`), traversing the two columns in
parallel; under the DataFrame invariant both columns have `len(df)` entries,
so `iloc` indexing is simultaneous traversal. -/
def compareLoop : List Cell → List Cell → Nat → LoopState → LoopState
  | c :: cs, e :: es, idx, st => compareLoop cs es (idx + 1) (rowStep c e idx st)
  | _, _, _, st => st

/-- An in-memory table: the row count (`len(df)`) and the named columns.
Well-formedness (every column has `nRows` cells) is a DataFrame invariant and
is taken as a hypothesis where a claim needs it. -/
structure Table where
  nRows : Nat
  cols : List (String × List Cell)

/-- The column labels (`df.columns`). -/
def Table.colNames (tbl : Table) : List String :=
  tbl.cols.map Prod.fst

/-- `df[name]`: the cells of the first column with that label. -/
def Table.getCol (tbl : Table) (name : String) : List Cell :=
  match tbl.cols.find? (fun p => p.1 == name) with
  | some p => p.2
  | none => []

/-- `ColumnMappingCalculation` (mapping fields that the calculator reads),
with the `uuid4` id modelled as a natural number. -/
structure CalcMapping where
  id : Nat
  crm_column : String
  export_column : Option String
  comparison_stats : Option ColumnComparisonStats := none
deriving DecidableEq, Repr

/-- Python truthiness of an optional string (`not export_col`): `None` and
the empty string are falsy. -/
def optStrFalsy : Option String → Bool
  | none => true
  | some s => s == ""

/-- `_calculate_column_comparison_stats` (`enrichment_calculator.py`): returns
the computed stats together with the updated `modified_records` set.  A falsy
export column or a column name missing from the table short-circuits to a
default-valued stats record carrying only the mapping id. -/
def calcColumnComparisonStats (M : Matchers) (tbl : Table) (cm : CalcMapping)
    (modifiedRecords : Finset Nat) : ColumnComparisonStats × Finset Nat :=
  let crmCol := cm.crm_column
  if optStrFalsy cm.export_column || !(tbl.colNames.contains crmCol) ||
      !(tbl.colNames.contains (cm.export_column.getD "")) then
    ({ column_mapping_id := cm.id }, modifiedRecords)
  else
    let exportCol := cm.export_column.getD ""
    let crmData := tbl.getCol crmCol
    let exportData := tbl.getCol exportCol
    let fin := compareLoop crmData exportData 0 ⟨0, 0, 0, 0, 0, modifiedRecords⟩
    let totalRows := tbl.nRows
    let cva := exportData.countP Cell.notna
    let pb : ℚ := if totalRows > 0 then ((fin.unchanged : ℚ) / (totalRows : ℚ)) * 100 else 0
    let pa : ℚ := if totalRows > 0 then ((cva : ℚ) / (totalRows : ℚ)) * 100 else 0
    let crmFmt := calculateColumnFormats M crmData
    let exportFmt := calculateColumnFormats M exportData
    ({ column_mapping_id := cm.id,
       discarded_invalid_data := fin.discarded,
       added_new_data := fin.added,
       fixed_data := fin.fixed,
       good_data := fin.good,
       correct_values_before := fin.unchanged,
       correct_values_after := cva,
       correct_percentage_before := pb,
       correct_percentage_after := pa,
       crm_data_type := crmFmt.1,
       crm_format_count := crmFmt.2,
       export_data_type := exportFmt.1,
       export_format_count := exportFmt.2 }, fin.modified)

/-- One mapping of the `ColumnMatchingResponse` consumed by the calculator. -/
structure MappingInput where
  crm_column : String
  export_column : Option String
  is_many_to_one : Bool := false
  additional_crm_columns : Option (List String) := none
deriving DecidableEq, Repr

/-- The global statistics of `_calculate_global_statistics`
(`enrichment_calculator.py`). -/
structure GlobalStats where
  new_columns_count : Nat
  many_to_one_count : Nat
  columns_reduced_by_merging : Int
deriving DecidableEq, Repr

/-- `_calculate_global_statistics`: unmapped export columns, many-to-one
count, and the merge-reduction count accumulated by the loop in the source
(`+1` per many-to-one mapping, plus the additional columns when that list is
truthy, i.e. present and non-empty). -/
def calcGlobalStatistics (mappings : List MappingInput)
    (unmappedExportColumns : List String) : GlobalStats :=
  let manyToOne := mappings.filter (fun m => m.is_many_to_one)
  let totalCrmInManyToOne := manyToOne.foldl
    (fun (acc : Nat) m =>
      acc + 1 +
        (match m.additional_crm_columns with
         | some l => if l.isEmpty then 0 else l.length
         | none => 0))
    0
  { new_columns_count := unmappedExportColumns.length,
    many_to_one_count := manyToOne.length,
    columns_reduced_by_merging :=
      (totalCrmInManyToOne : Int) - (manyToOne.length : Int) }

/-- The slice of `EnrichmentReportCalculation` that `calculate_statistics`
fills in and the claims are about. -/
structure EnrichmentReport where
  total_rows : Nat
  new_columns_count : Nat
  many_to_one_count : Nat
  columns_reduced_by_merging : Int
  records_modified_count : Nat
  column_mappings : List CalcMapping
deriving DecidableEq, Repr

/-- `calculate_statistics` (`enrichment_calculator.py`): build the mapping
records (fresh ids modelled as positions), compute comparison stats for every
mapping with a truthy export column while threading the shared
`modified_records` set, and finally re-attach the collected stats list to the
mapping list by position (`if i < len(all_comparison_stats)`), exactly as the
source does. -/
def calculateStatistics (M : Matchers) (tbl : Table)
    (mappings : List MappingInput) (unmappedExportColumns : List String) :
    EnrichmentReport :=
  let globalStats := calcGlobalStatistics mappings unmappedExportColumns
  let columnMappings : List CalcMapping :=
    mappings.enum.map (fun p =>
      { id := p.1, crm_column := p.2.crm_column, export_column := p.2.export_column })
  let statsAndModified :=
    columnMappings.foldl
      (fun (acc : List ColumnComparisonStats × Finset Nat) cm =>
        if !(optStrFalsy cm.export_column) then
          let r := calcColumnComparisonStats M tbl cm acc.2
          (acc.1 ++ [{ r.1 with column_mapping_id := cm.id }], r.2)
        else acc)
      ([], ∅)
  let allComparisonStats := statsAndModified.1
  let paired := columnMappings.enum.map (fun p =>
    match allComparisonStats.get? p.1 with
    | some st => { p.2 with comparison_stats := some st }
    | none => p.2)
  { total_rows := tbl.nRows,
    new_columns_count := globalStats.new_columns_count,
    many_to_one_count := globalStats.many_to_one_count,
    columns_reduced_by_merging := globalStats.columns_reduced_by_merging,
    records_modified_count := statsAndModified.2.card,
    column_mappings := paired }

/-! ### Concrete matcher instances and tables used for evaluation -/

/-- A matcher bundle in which no external predicate accepts anything: it
models a column whose values match none of the library-backed patterns. -/
def trivialMatchers : Matchers where
  urlMatch _ := false
  urlFormat _ := ""
  emailMatch _ := false
  phoneMatch _ := false
  phonenumbersAvailable := false
  phoneValid _ := false
  explicitDateParse _ _ := false
  autoDateParse _ := false
  toNumeric _ := none

/-- A matcher bundle modelling a column of uniformly plausible and
library-valid phone numbers (PHONE_RE accepts and `phonenumbers` validates
every value); all other external predicates reject. -/
def phoneMatchers : Matchers where
  urlMatch _ := false
  urlFormat _ := ""
  emailMatch _ := false
  phoneMatch _ := true
  phonenumbersAvailable := true
  phoneValid _ := true
  explicitDateParse _ _ := false
  autoDateParse _ := false
  toNumeric _ := none

/-- A one-row table whose mapped source and destination cells are both null. -/
def tblBothNull : Table := ⟨1, [("a", [.null]), ("b", [.null])]⟩

/-- A mapping from column `a` to column `b`. -/
def cmAB : CalcMapping := ⟨5, "a", some "b", none⟩

/-- A one-row table with a populated source cell and a destination cell that
is non-null but blank. -/
def tblBlankDest : Table := ⟨1, [("a", [.text "x"]), ("b", [.text ""])]⟩

/-- A two-row table whose mapped columns both hold the same two valid phone
numbers written in two different layouts. -/
def tblPhone : Table :=
  ⟨2, [("p", [.text "+12025550143", .text "(202) 555-0143"]),
       ("q", [.text "+12025550143", .text "(202) 555-0143"])]⟩

/-- A mapping from phone column `p` to phone column `q`. -/
def cmPQ : CalcMapping := ⟨0, "p", some "q", none⟩

/-- A one-row table holding columns `b` and `c`. -/
def tblBC : Table := ⟨1, [("b", [.text "v"]), ("c", [.text "v"])]⟩

/-- A batch of two mappings: the first has no destination column, the second
maps `b` to `c`. -/
def twoMappings : List MappingInput :=
  [⟨"a", none, false, none⟩, ⟨"b", some "c", false, none⟩]

/-- A mapping from column `b` to column `c` (both present in `tblBC`). -/
def cmBC : CalcMapping := ⟨3, "b", some "c", none⟩

/-- A mapping whose destination column is `None`. -/
def cmNone : CalcMapping := ⟨7, "a", none, none⟩

/-! ### Specification-side row predicates -/

/-- A row in which both cells are present and their trimmed string renderings
coincide (the "good" bucket). -/
def isGoodPair (p : Cell × Cell) : Bool :=
  p.1.hasValue && p.2.hasValue && (pyStrip p.1.pyStr == pyStrip p.2.pyStr)

/-- A row in which neither cell is present (the both-empty bucket). -/
def isBothEmptyPair (p : Cell × Cell) : Bool :=
  !p.1.hasValue && !p.2.hasValue

/-- The number of rows of the zipped columns in which both cells are empty. -/
def bothEmptyCount (cs es : List Cell) : Nat :=
  (cs.zip es).countP isBothEmptyPair

/-- The number of additional source columns of a mapping (`None` counts 0). -/
def addCount (m : MappingInput) : Nat :=
  match m.additional_crm_columns with
  | some l => l.length
  | none => 0

/-! ### Support lemmas -/

/-- `ratHalf` is the float literal 0.5. -/
theorem ratHalf_eq_div : ratHalf = 1 / 2 := by
  rw [ratHalf, Rat.mk'_eq_divInt, Rat.divInt_eq_div]; norm_num

/-- `ratPoint8` is the float literal 0.8. -/
theorem ratPoint8_eq_div : ratPoint8 = 4 / 5 := by
  rw [ratPoint8, Rat.mk'_eq_divInt, Rat.divInt_eq_div]; norm_num

/-- For a positive denominator, `ratioGE` is exactly the source comparison
`num / den >= threshold`. -/
theorem ratioGE_eq_div (t : ℚ) (num den : Nat) (h : 0 < den) :
    ratioGE t num den = true ↔ t ≤ (num : ℚ) / (den : ℚ) := by
  have hden : (0 : ℚ) < (den : ℚ) := by exact_mod_cast h
  have htden : (0 : ℚ) < (t.den : ℚ) := by exact_mod_cast t.den_pos
  unfold ratioGE
  rw [decide_eq_true_eq, le_div_iff₀ hden]
  conv_rhs => rw [← Rat.num_div_den t]
  rw [div_mul_eq_mul_div, div_le_iff₀ htden]
  constructor
  · intro h1; exact_mod_cast h1
  · intro h1; exact_mod_cast h1

/-- Acceptance at a larger threshold implies acceptance at a smaller one. -/
theorem ratioGE_antitone {t₁ t₂ : ℚ} (h : t₁ ≤ t₂) {num den : Nat}
    (h2 : ratioGE t₂ num den = true) : ratioGE t₁ num den = true := by
  unfold ratioGE at h2 ⊢
  rw [decide_eq_true_eq] at h2 ⊢
  rw [Rat.le_def] at h
  have hd : (0 : ℤ) ≤ (den : ℤ) := Int.natCast_nonneg den
  have h1d : (0 : ℤ) ≤ (t₁.den : ℤ) := Int.natCast_nonneg t₁.den
  have h2d : (0 : ℤ) < (t₂.den : ℤ) := by exact_mod_cast t₂.den_pos
  have key : t₁.num * (den : ℤ) * (t₂.den : ℤ) ≤ (num : ℤ) * (t₁.den : ℤ) * (t₂.den : ℤ) := by
    nlinarith [mul_le_mul_of_nonneg_right h hd, mul_le_mul_of_nonneg_right h2 h1d]
  exact le_of_mul_le_mul_right key h2d

/-- A positive threshold accepted over a nonempty column forces a nonzero
match count. -/
theorem ratioGE_pos {t : ℚ} (ht : 0 < t) {num den : Nat}
    (h : ratioGE t num den = true) (hden : 0 < den) : 0 < num := by
  unfold ratioGE at h
  rw [decide_eq_true_eq] at h
  have htn : 0 < t.num := Rat.num_pos.mpr ht
  rcases Nat.eq_zero_or_pos num with hn | hn
  · subst hn
    simp only [Nat.cast_zero, zero_mul] at h
    have hdz : (0 : ℤ) < (den : ℤ) := by exact_mod_cast hden
    nlinarith
  · exact hn

/-- The row step increments `good_data` exactly on good pairs. -/
theorem rowStep_good (c e : Cell) (i : Nat) (st : LoopState) :
    (rowStep c e i st).good = st.good + (if isGoodPair (c, e) then 1 else 0) := by
  unfold rowStep isGoodPair
  cases hc : c.hasValue <;> cases he : e.hasValue <;> simp [hc, he] <;> split <;> simp

/-- The row step increments the internal `unchanged_records` counter exactly
on good pairs and both-empty pairs. -/
theorem rowStep_unchanged (c e : Cell) (i : Nat) (st : LoopState) :
    (rowStep c e i st).unchanged =
      st.unchanged + (if isGoodPair (c, e) || isBothEmptyPair (c, e) then 1 else 0) := by
  unfold rowStep isGoodPair isBothEmptyPair
  cases hc : c.hasValue <;> cases he : e.hasValue <;> simp [hc, he] <;> split <;> simp

/-- The row step increments exactly one of `good`, `fixed`, `added` precisely
when the destination cell is non-empty. -/
theorem rowStep_gfa (c e : Cell) (i : Nat) (st : LoopState) :
    (rowStep c e i st).good + (rowStep c e i st).fixed + (rowStep c e i st).added =
      st.good + st.fixed + st.added + (if e.hasValue then 1 else 0) := by
  unfold rowStep
  cases hc : c.hasValue <;> cases he : e.hasValue <;> simp [hc, he] <;>
    first
    | omega
    | (split <;> simp <;> omega)

/-- The loop counts good pairs into `good`. -/
theorem compareLoop_good : ∀ (cs es : List Cell) (i : Nat) (st : LoopState),
    (compareLoop cs es i st).good = st.good + (cs.zip es).countP isGoodPair := by
  intro cs
  induction cs with
  | nil => intro es i st; cases es <;> simp [compareLoop]
  | cons c cs ih =>
    intro es i st
    cases es with
    | nil => simp [compareLoop]
    | cons e es =>
      simp only [compareLoop, List.zip_cons_cons, List.countP_cons]
      rw [ih, rowStep_good]
      omega

/-- A good pair is never a both-empty pair. -/
theorem isGoodPair_not_bothEmpty (p : Cell × Cell) (h : isGoodPair p = true) :
    isBothEmptyPair p = false := by
  unfold isGoodPair at h
  unfold isBothEmptyPair
  cases h1 : p.1.hasValue <;> simp [h1] at h ⊢

/-- The loop counts good and both-empty pairs into `unchanged_records`. -/
theorem compareLoop_unchanged : ∀ (cs es : List Cell) (i : Nat) (st : LoopState),
    (compareLoop cs es i st).unchanged =
      st.unchanged + (cs.zip es).countP isGoodPair +
        (cs.zip es).countP isBothEmptyPair := by
  intro cs
  induction cs with
  | nil => intro es i st; cases es <;> simp [compareLoop]
  | cons c cs ih =>
    intro es i st
    cases es with
    | nil => simp [compareLoop]
    | cons e es =>
      simp only [compareLoop, List.zip_cons_cons, List.countP_cons]
      rw [ih, rowStep_unchanged]
      cases hg : isGoodPair (c, e) with
      | true =>
        have hb := isGoodPair_not_bothEmpty (c, e) hg
        simp [hg, hb]
        omega
      | false =>
        cases hb : isBothEmptyPair (c, e) <;> simp [hg, hb] <;> omega

/-- The loop counts rows with a non-empty destination cell into the sum
`good + fixed + added`. -/
theorem compareLoop_gfa : ∀ (cs es : List Cell) (i : Nat) (st : LoopState),
    (compareLoop cs es i st).good + (compareLoop cs es i st).fixed +
        (compareLoop cs es i st).added =
      st.good + st.fixed + st.added +
        (cs.zip es).countP (fun q => q.2.hasValue) := by
  intro cs
  induction cs with
  | nil => intro es i st; cases es <;> simp [compareLoop]
  | cons c cs ih =>
    intro es i st
    cases es with
    | nil => simp [compareLoop]
    | cons e es =>
      simp only [compareLoop, List.zip_cons_cons, List.countP_cons]
      rw [ih]
      have := rowStep_gfa c e i st
      omega

/-- Counting a destination-side predicate over the zipped rows is counting it
over the destination column, for columns of equal length. -/
theorem countP_zip_snd (p : Cell → Bool) :
    ∀ (cs es : List Cell), cs.length = es.length →
      (cs.zip es).countP (fun q => p q.2) = es.countP p := by
  intro cs
  induction cs with
  | nil =>
    intro es h
    cases es with
    | nil => simp
    | cons e es => simp at h
  | cons c cs ih =>
    intro es h
    cases es with
    | nil => simp at h
    | cons e es =>
      simp only [List.zip_cons_cons, List.countP_cons]
      rw [ih es (by simpa using h)]

/-- Unfolding of `_calculate_column_comparison_stats` when the mapping has a
non-empty destination column and both named columns exist. -/
theorem calcStats_found (M : Matchers) (tbl : Table) (cm : CalcMapping)
    (modified : Finset Nat) (e : String)
    (he : cm.export_column = some e) (hne : e ≠ "")
    (hcrm : tbl.colNames.contains cm.crm_column = true)
    (hexp : tbl.colNames.contains e = true) :
    calcColumnComparisonStats M tbl cm modified =
      ({ column_mapping_id := cm.id,
         discarded_invalid_data :=
           (compareLoop (tbl.getCol cm.crm_column) (tbl.getCol e) 0
             ⟨0, 0, 0, 0, 0, modified⟩).discarded,
         added_new_data :=
           (compareLoop (tbl.getCol cm.crm_column) (tbl.getCol e) 0
             ⟨0, 0, 0, 0, 0, modified⟩).added,
         fixed_data :=
           (compareLoop (tbl.getCol cm.crm_column) (tbl.getCol e) 0
             ⟨0, 0, 0, 0, 0, modified⟩).fixed,
         good_data :=
           (compareLoop (tbl.getCol cm.crm_column) (tbl.getCol e) 0
             ⟨0, 0, 0, 0, 0, modified⟩).good,
         correct_values_before :=
           (compareLoop (tbl.getCol cm.crm_column) (tbl.getCol e) 0
             ⟨0, 0, 0, 0, 0, modified⟩).unchanged,
         correct_values_after := (tbl.getCol e).countP Cell.notna,
         correct_percentage_before :=
           if tbl.nRows > 0 then
             (((compareLoop (tbl.getCol cm.crm_column) (tbl.getCol e) 0
               ⟨0, 0, 0, 0, 0, modified⟩).unchanged : ℚ) / (tbl.nRows : ℚ)) * 100
           else 0,
         correct_percentage_after :=
           if tbl.nRows > 0 then
             (((tbl.getCol e).countP Cell.notna : ℚ) / (tbl.nRows : ℚ)) * 100
           else 0,
         crm_data_type := (calculateColumnFormats M (tbl.getCol cm.crm_column)).1,
         crm_format_count := (calculateColumnFormats M (tbl.getCol cm.crm_column)).2,
         export_data_type := (calculateColumnFormats M (tbl.getCol e)).1,
         export_format_count := (calculateColumnFormats M (tbl.getCol e)).2 },
       (compareLoop (tbl.getCol cm.crm_column) (tbl.getCol e) 0
         ⟨0, 0, 0, 0, 0, modified⟩).modified) := by
  have h1 : optStrFalsy cm.export_column = false := by simp [optStrFalsy, he, hne]
  have hcrm2 : cm.crm_column ∈ tbl.colNames := by
    have := hcrm
    simpa using this
  have hexp2 : e ∈ tbl.colNames := by
    have := hexp
    simpa using this
  unfold calcColumnComparisonStats
  rw [he] at h1 ⊢
  simp [h1, hcrm2, hexp2]

/-! ### Claim theorems -/

/-- Claim C1: the five-bucket sum invariant
`discarded + added + good + fixed + not_found = total_rows` FAILS on the code:
on a one-row table whose source and destination cells are both null, the
calculator leaves `not_found` at 0 (it never increments that field), so the
five buckets sum to 0 while the table has 1 row. -/
theorem claim_C1_sum_invariant_fails :
    ((calcColumnComparisonStats trivialMatchers tblBothNull cmAB ∅).1).discarded_invalid_data +
      ((calcColumnComparisonStats trivialMatchers tblBothNull cmAB ∅).1).added_new_data +
      ((calcColumnComparisonStats trivialMatchers tblBothNull cmAB ∅).1).good_data +
      ((calcColumnComparisonStats trivialMatchers tblBothNull cmAB ∅).1).fixed_data +
      ((calcColumnComparisonStats trivialMatchers tblBothNull cmAB ∅).1).not_found ≠
      tblBothNull.nRows := by decide

/-- Claim C2 (counterexample): `correct_percentage_before` is NOT
`good_data / total_rows * 100`: on a one-row table with both cells null the
code reports 100 percent (the internal unchanged counter includes the
both-empty row) while `good_data = 0`. -/
theorem claim_C2_counterexample :
    ((calcColumnComparisonStats trivialMatchers tblBothNull cmAB ∅).1).correct_percentage_before ≠
      ((((calcColumnComparisonStats trivialMatchers tblBothNull cmAB ∅).1).good_data : ℚ) /
        (tblBothNull.nRows : ℚ)) * 100 := by
  have h1 : ((calcColumnComparisonStats trivialMatchers tblBothNull cmAB ∅).1).correct_percentage_before
      = (((1 : Nat) : ℚ) / ((1 : Nat) : ℚ)) * 100 := rfl
  have h2 : ((calcColumnComparisonStats trivialMatchers tblBothNull cmAB ∅).1).good_data = 0 := by
    decide
  have h3 : tblBothNull.nRows = 1 := rfl
  rw [h1, h2, h3]
  norm_num

/-- Claim C2 (amended): for an applicable mapping,
`correct_percentage_before = (good_data + both_empty_count) / total_rows * 100`
(the code counts both-empty rows as correct-before) and
`correct_percentage_after = (number of non-null destination cells) / total_rows
* 100` (blank non-null cells included); both are 0 when the table is empty. -/
theorem claim_C2_amended (M : Matchers) (tbl : Table) (cm : CalcMapping)
    (modified : Finset Nat) (e : String)
    (he : cm.export_column = some e) (hne : e ≠ "")
    (hcrm : tbl.colNames.contains cm.crm_column = true)
    (hexp : tbl.colNames.contains e = true)
    (hlc : (tbl.getCol cm.crm_column).length = tbl.nRows)
    (hle : (tbl.getCol e).length = tbl.nRows) :
    (0 < tbl.nRows →
      ((calcColumnComparisonStats M tbl cm modified).1).correct_percentage_before =
        (((((calcColumnComparisonStats M tbl cm modified).1).good_data +
            bothEmptyCount (tbl.getCol cm.crm_column) (tbl.getCol e) : Nat) : ℚ) /
          (tbl.nRows : ℚ)) * 100 ∧
      ((calcColumnComparisonStats M tbl cm modified).1).correct_percentage_after =
        ((((tbl.getCol e).countP Cell.notna : Nat) : ℚ) / (tbl.nRows : ℚ)) * 100) ∧
    (tbl.nRows = 0 →
      ((calcColumnComparisonStats M tbl cm modified).1).correct_percentage_before = 0 ∧
      ((calcColumnComparisonStats M tbl cm modified).1).correct_percentage_after = 0) := by
  rw [calcStats_found M tbl cm modified e he hne hcrm hexp]
  have hu := compareLoop_unchanged (tbl.getCol cm.crm_column) (tbl.getCol e) 0
    ⟨0, 0, 0, 0, 0, modified⟩
  have hg := compareLoop_good (tbl.getCol cm.crm_column) (tbl.getCol e) 0
    ⟨0, 0, 0, 0, 0, modified⟩
  constructor
  · intro hpos
    constructor
    · simp only
      rw [if_pos hpos, hu, hg]
      unfold bothEmptyCount
      norm_num
    · simp only
      rw [if_pos hpos]
  · intro hzero
    constructor <;> simp only <;> rw [if_neg (by omega)]

/-- Claim C2 (witness): the amended statement instantiated on the concrete
table `tblBC` and mapping `cmBC`. -/
theorem claim_C2_witness :
    (cmBC.export_column = some "c" ∧ "c" ≠ "" ∧
      tblBC.colNames.contains cmBC.crm_column = true ∧
      tblBC.colNames.contains "c" = true ∧
      (tblBC.getCol cmBC.crm_column).length = tblBC.nRows ∧
      (tblBC.getCol "c").length = tblBC.nRows) ∧
    ((0 < tblBC.nRows →
      ((calcColumnComparisonStats trivialMatchers tblBC cmBC ∅).1).correct_percentage_before =
        (((((calcColumnComparisonStats trivialMatchers tblBC cmBC ∅).1).good_data +
            bothEmptyCount (tblBC.getCol cmBC.crm_column) (tblBC.getCol "c") : Nat) : ℚ) /
          (tblBC.nRows : ℚ)) * 100 ∧
      ((calcColumnComparisonStats trivialMatchers tblBC cmBC ∅).1).correct_percentage_after =
        ((((tblBC.getCol "c").countP Cell.notna : Nat) : ℚ) / (tblBC.nRows : ℚ)) * 100) ∧
    (tblBC.nRows = 0 →
      ((calcColumnComparisonStats trivialMatchers tblBC cmBC ∅).1).correct_percentage_before = 0 ∧
      ((calcColumnComparisonStats trivialMatchers tblBC cmBC ∅).1).correct_percentage_after = 0)) :=
  ⟨by decide,
    claim_C2_amended trivialMatchers tblBC cmBC ∅ "c" (by decide) (by decide)
      (by decide) (by decide) (by decide) (by decide)⟩

/-- Claim C3: a mapping with no destination column can still be handed
comparison statistics, and a mapping with a destination column can be left
without them — the code re-attaches the collected stats by list position
instead of by mapping id.  On the batch `[a → None, b → c]` the first mapping
receives the stats computed for the second (its attached stats carry the
second mapping id) and the second mapping gets none. -/
theorem claim_C3_stats_misattached :
    (((calculateStatistics trivialMatchers tblBC twoMappings []).column_mappings.get? 0).map
        (fun cm => cm.export_column)) = some none ∧
    ((((calculateStatistics trivialMatchers tblBC twoMappings []).column_mappings.get? 0).bind
        (fun cm => cm.comparison_stats)).map
        (fun st => st.column_mapping_id)) = some 1 ∧
    (((calculateStatistics trivialMatchers tblBC twoMappings []).column_mappings.get? 1).map
        (fun cm => cm.export_column)) = some (some "c") ∧
    (((calculateStatistics trivialMatchers tblBC twoMappings []).column_mappings.get? 1).bind
        (fun cm => cm.comparison_stats)) = none := by decide

/-- Claim C4 (counterexample): `correct_values_after` does NOT equal
`good_data + fixed_data + added_new_data`: with a destination cell that is a
non-null blank string, the sum is 0 but `correct_values_after` (a plain
non-null count) is 1. -/
theorem claim_C4_counterexample :
    ((calcColumnComparisonStats trivialMatchers tblBlankDest cmAB ∅).1).correct_values_after ≠
      ((calcColumnComparisonStats trivialMatchers tblBlankDest cmAB ∅).1).good_data +
      ((calcColumnComparisonStats trivialMatchers tblBlankDest cmAB ∅).1).fixed_data +
      ((calcColumnComparisonStats trivialMatchers tblBlankDest cmAB ∅).1).added_new_data := by
  decide

/-- Claim C4 (amended): `good_data + fixed_data + added_new_data` equals the
number of destination cells that are non-null and non-blank, while
`correct_values_after` equals the number of non-null destination cells
(blank strings included). -/
theorem claim_C4_amended (M : Matchers) (tbl : Table) (cm : CalcMapping)
    (modified : Finset Nat) (e : String)
    (he : cm.export_column = some e) (hne : e ≠ "")
    (hcrm : tbl.colNames.contains cm.crm_column = true)
    (hexp : tbl.colNames.contains e = true)
    (hlc : (tbl.getCol cm.crm_column).length = tbl.nRows)
    (hle : (tbl.getCol e).length = tbl.nRows) :
    ((calcColumnComparisonStats M tbl cm modified).1).good_data +
      ((calcColumnComparisonStats M tbl cm modified).1).fixed_data +
      ((calcColumnComparisonStats M tbl cm modified).1).added_new_data =
        (tbl.getCol e).countP Cell.hasValue ∧
    ((calcColumnComparisonStats M tbl cm modified).1).correct_values_after =
      (tbl.getCol e).countP Cell.notna := by
  rw [calcStats_found M tbl cm modified e he hne hcrm hexp]
  constructor
  · simp only
    have h := compareLoop_gfa (tbl.getCol cm.crm_column) (tbl.getCol e) 0
      ⟨0, 0, 0, 0, 0, modified⟩
    rw [h, countP_zip_snd Cell.hasValue _ _ (hlc.trans hle.symm)]
    simp
  · rfl

/-- Claim C4 (witness): the amended statement instantiated on the concrete
table `tblBC` and mapping `cmBC`. -/
theorem claim_C4_witness :
    (cmBC.export_column = some "c" ∧ "c" ≠ "" ∧
      tblBC.colNames.contains cmBC.crm_column = true ∧
      tblBC.colNames.contains "c" = true ∧
      (tblBC.getCol cmBC.crm_column).length = tblBC.nRows ∧
      (tblBC.getCol "c").length = tblBC.nRows) ∧
    (((calcColumnComparisonStats trivialMatchers tblBC cmBC ∅).1).good_data +
      ((calcColumnComparisonStats trivialMatchers tblBC cmBC ∅).1).fixed_data +
      ((calcColumnComparisonStats trivialMatchers tblBC cmBC ∅).1).added_new_data =
        (tblBC.getCol "c").countP Cell.hasValue ∧
    ((calcColumnComparisonStats trivialMatchers tblBC cmBC ∅).1).correct_values_after =
      (tblBC.getCol "c").countP Cell.notna) :=
  ⟨by decide,
    claim_C4_amended trivialMatchers tblBC cmBC ∅ "c" (by decide) (by decide)
      (by decide) (by decide) (by decide) (by decide)⟩

/-- Claim C5: when the destination column is `None`, or the named source or
destination column is missing from the table, the engine returns a stats
record in which all five row buckets, both correct-value counts and both
percentages are zero, and it leaves the caller-supplied modified-records set
untouched. -/
theorem claim_C5_zero_stats (M : Matchers) (tbl : Table) (cm : CalcMapping)
    (modified : Finset Nat)
    (h : cm.export_column = none ∨ cm.crm_column ∉ tbl.colNames ∨
         (∃ e, cm.export_column = some e ∧ e ∉ tbl.colNames)) :
    ((calcColumnComparisonStats M tbl cm modified).1).discarded_invalid_data = 0 ∧
    ((calcColumnComparisonStats M tbl cm modified).1).added_new_data = 0 ∧
    ((calcColumnComparisonStats M tbl cm modified).1).good_data = 0 ∧
    ((calcColumnComparisonStats M tbl cm modified).1).fixed_data = 0 ∧
    ((calcColumnComparisonStats M tbl cm modified).1).not_found = 0 ∧
    ((calcColumnComparisonStats M tbl cm modified).1).correct_values_before = 0 ∧
    ((calcColumnComparisonStats M tbl cm modified).1).correct_values_after = 0 ∧
    ((calcColumnComparisonStats M tbl cm modified).1).correct_percentage_before = 0 ∧
    ((calcColumnComparisonStats M tbl cm modified).1).correct_percentage_after = 0 ∧
    (calcColumnComparisonStats M tbl cm modified).2 = modified := by
  rcases h with he | hcrm | ⟨e, he, hexp⟩
  · unfold calcColumnComparisonStats
    simp [he, optStrFalsy]
  · unfold calcColumnComparisonStats
    simp [hcrm]
  · unfold calcColumnComparisonStats
    simp [he, hexp]

/-- Claim C5 (witness): the zero-stats behaviour on the concrete mapping with
destination `None` over `tblBC`. -/
theorem claim_C5_witness :
    (cmNone.export_column = none) ∧
    (((calcColumnComparisonStats trivialMatchers tblBC cmNone ∅).1).discarded_invalid_data = 0 ∧
    ((calcColumnComparisonStats trivialMatchers tblBC cmNone ∅).1).added_new_data = 0 ∧
    ((calcColumnComparisonStats trivialMatchers tblBC cmNone ∅).1).good_data = 0 ∧
    ((calcColumnComparisonStats trivialMatchers tblBC cmNone ∅).1).fixed_data = 0 ∧
    ((calcColumnComparisonStats trivialMatchers tblBC cmNone ∅).1).not_found = 0 ∧
    ((calcColumnComparisonStats trivialMatchers tblBC cmNone ∅).1).correct_values_before = 0 ∧
    ((calcColumnComparisonStats trivialMatchers tblBC cmNone ∅).1).correct_values_after = 0 ∧
    ((calcColumnComparisonStats trivialMatchers tblBC cmNone ∅).1).correct_percentage_before = 0 ∧
    ((calcColumnComparisonStats trivialMatchers tblBC cmNone ∅).1).correct_percentage_after = 0 ∧
    (calcColumnComparisonStats trivialMatchers tblBC cmNone ∅).2 = ∅) :=
  ⟨rfl, claim_C5_zero_stats trivialMatchers tblBC cmNone ∅ (Or.inl rfl)⟩

/-- Claim C9: the aggregated global statistics are exactly: number of
unmapped destination columns, number of many-to-one mappings, and the sum
over many-to-one mappings of (1 + number of additional source columns) minus
the many-to-one count. -/
theorem claim_C9_global_statistics (mappings : List MappingInput)
    (unmapped : List String) :
    calcGlobalStatistics mappings unmapped =
      { new_columns_count := unmapped.length,
        many_to_one_count := mappings.countP (fun m => m.is_many_to_one),
        columns_reduced_by_merging :=
          ((((mappings.filter (fun m => m.is_many_to_one)).map
              (fun m => 1 + addCount m)).sum : Nat) : Int) -
            ((mappings.countP (fun m => m.is_many_to_one) : Nat) : Int) } := by
  have hfold : ∀ (l : List MappingInput) (a : Nat),
      l.foldl (fun (acc : Nat) m =>
        acc + 1 +
          (match m.additional_crm_columns with
           | some x => if x.isEmpty then 0 else x.length
           | none => 0)) a =
        a + (l.map (fun m => 1 + addCount m)).sum := by
    intro l
    induction l with
    | nil => intro a; simp
    | cons m l ih =>
      intro a
      have hpayload :
          (match m.additional_crm_columns with
           | some x => if x.isEmpty then 0 else x.length
           | none => 0) = addCount m := by
        unfold addCount
        cases hx : m.additional_crm_columns with
        | none => rfl
        | some x => cases x <;> simp
      simp only [List.foldl_cons, List.map_cons, List.sum_cons, ih, hpayload]
      omega
  have hlen : (mappings.filter (fun m => m.is_many_to_one)).length =
      mappings.countP (fun m => m.is_many_to_one) := by
    rw [List.countP_eq_length_filter]
  simp only [calcGlobalStatistics]
  rw [hfold, hlen]
  norm_num

/-- Claim C10: a both-present row is classified good exactly when the
trimmed `str()` renderings of the two cells coincide — equality is by
stringification, never type-aware: the integer cell 1 and the text cell "1"
compare equal. -/
theorem claim_C10_stringified_equality :
    (∀ (c e : Cell) (i : Nat) (st : LoopState),
        ((rowStep c e i st).good = st.good + 1 ↔
          (c.hasValue = true ∧ e.hasValue = true ∧
            pyStrip c.pyStr = pyStrip e.pyStr))) ∧
    (rowStep (Cell.intV 1) (Cell.text "1") 0 ⟨0, 0, 0, 0, 0, ∅⟩).good = 1 := by
  constructor
  · intro c e i st
    rw [rowStep_good c e i st]
    unfold isGoodPair
    cases hc : c.hasValue <;> cases he : e.hasValue <;> simp [hc, he]
  · decide

/-! ### Threshold monotonicity of the detection cascade (claim C6) -/

/-- Every detection result ranks at most at the string fallback. -/
theorem typeRank_le (o : Option String) : typeRank o ≤ 7 := by
  unfold typeRank
  split_ifs <;> omega

/-- The float stage only returns float or the string fallback. -/
theorem floatStage_lb (M : Matchers) (s : List String) (t : ℚ) :
    6 ≤ typeRank (detectFloatStage M s t).1 := by
  unfold detectFloatStage
  split_ifs <;> simp [typeRank]

/-- The integer stage only returns integer or a later family. -/
theorem intStage_lb (M : Matchers) (s : List String) (t : ℚ) :
    5 ≤ typeRank (detectIntegerStage M s t).1 := by
  unfold detectIntegerStage
  split
  · simp [typeRank]
  · exact le_trans (by norm_num) (floatStage_lb M s t)

/-- The boolean stage only returns boolean or a later family. -/
theorem boolStage_lb (M : Matchers) (s : List String) (t : ℚ) :
    4 ≤ typeRank (detectBooleanStage M s t).1 := by
  unfold detectBooleanStage
  split
  · simp [typeRank]
  · exact le_trans (by norm_num) (intStage_lb M s t)

/-- The date stage only returns date or a later family. -/
theorem dateStage_lb (M : Matchers) (s : List String) (t : ℚ) :
    3 ≤ typeRank (detectDateStage M s t).1 := by
  unfold detectDateStage
  split
  · split
    · simp [typeRank]
    · exact le_trans (by norm_num) (boolStage_lb M s t)
  · exact le_trans (by norm_num) (boolStage_lb M s t)

/-- The phone stage only returns phone or a later family. -/
theorem phoneStage_lb (M : Matchers) (s : List String) (t : ℚ) :
    2 ≤ typeRank (detectPhoneStage M s t).1 := by
  unfold detectPhoneStage
  split
  · split
    · split
      · simp [typeRank]
      · exact le_trans (by norm_num) (dateStage_lb M s t)
    · simp [typeRank]
  · exact le_trans (by norm_num) (dateStage_lb M s t)

/-- The email stage only returns email or a later family. -/
theorem emailStage_lb (M : Matchers) (s : List String) (t : ℚ) :
    1 ≤ typeRank (detectEmailStage M s t).1 := by
  unfold detectEmailStage
  split
  · simp [typeRank]
  · exact le_trans (by norm_num) (phoneStage_lb M s t)

/-- Raising the threshold moves the float stage result later (or not at all)
in the priority order. -/
theorem floatStage_mono (M : Matchers) (s : List String) {t₁ t₂ : ℚ}
    (h : t₁ ≤ t₂) :
    typeRank (detectFloatStage M s t₁).1 ≤ typeRank (detectFloatStage M s t₂).1 := by
  unfold detectFloatStage
  cases h2 : ratioGE t₂ (floatMatchesL M s).length s.length with
  | true =>
    have h1 := ratioGE_antitone h h2
    simp [h1, h2]
  | false =>
    refine le_trans (typeRank_le _) ?_
    simp only [h2, Bool.false_eq_true, if_false]
    split <;> simp [typeRank]

/-- Raising the threshold moves the integer stage result later. -/
theorem intStage_mono (M : Matchers) (s : List String) {t₁ t₂ : ℚ}
    (h : t₁ ≤ t₂) :
    typeRank (detectIntegerStage M s t₁).1 ≤ typeRank (detectIntegerStage M s t₂).1 := by
  unfold detectIntegerStage
  cases h2 : ratioGE t₂ (intMatchesL M s).length s.length with
  | true =>
    have h1 := ratioGE_antitone h h2
    simp [h1, h2]
  | false =>
    cases h1 : ratioGE t₁ (intMatchesL M s).length s.length with
    | true =>
      simp only [h1, h2, if_true, if_false]
      simp only [Bool.false_eq_true, if_false]
      exact le_trans (by simp [typeRank]) (floatStage_lb M s t₂)
    | false =>
      simp [h1, h2]
      exact floatStage_mono M s h

/-- Raising the threshold moves the boolean stage result later. -/
theorem boolStage_mono (M : Matchers) (s : List String) {t₁ t₂ : ℚ}
    (h : t₁ ≤ t₂) :
    typeRank (detectBooleanStage M s t₁).1 ≤ typeRank (detectBooleanStage M s t₂).1 := by
  unfold detectBooleanStage
  cases h2 : ratioGE t₂ (boolMatchesL s).length s.length with
  | true =>
    have h1 := ratioGE_antitone h h2
    simp [h1, h2]
  | false =>
    cases h1 : ratioGE t₁ (boolMatchesL s).length s.length with
    | true =>
      simp only [h1, h2, Bool.false_eq_true, if_true, if_false]
      exact le_trans (by simp [typeRank]) (intStage_lb M s t₂)
    | false =>
      simp [h1, h2]
      exact intStage_mono M s h

/-- Raising the threshold moves the date stage result later. -/
theorem dateStage_mono (M : Matchers) (s : List String) {t₁ t₂ : ℚ}
    (h : t₁ ≤ t₂) :
    typeRank (detectDateStage M s t₁).1 ≤ typeRank (detectDateStage M s t₂).1 := by
  unfold detectDateStage
  cases hg : (detectDateFormatFull M s).isSome with
  | false =>
    simp [hg]
    exact boolStage_mono M s h
  | true =>
    cases h2 : ratioGE t₂ (dateParsed M s).length s.length with
    | true =>
      have h1 := ratioGE_antitone h h2
      simp [hg, h1, h2]
    | false =>
      cases h1 : ratioGE t₁ (dateParsed M s).length s.length with
      | true =>
        simp only [hg, h1, h2, Bool.false_eq_true, if_true, if_false]
        exact le_trans (by simp [typeRank]) (boolStage_lb M s t₂)
      | false =>
        simp [hg, h1, h2]
        exact boolStage_mono M s h

/-- Raising the threshold moves the phone stage result later. -/
theorem phoneStage_mono (M : Matchers) (s : List String) {t₁ t₂ : ℚ}
    (h : t₁ ≤ t₂) :
    typeRank (detectPhoneStage M s t₁).1 ≤ typeRank (detectPhoneStage M s t₂).1 := by
  unfold detectPhoneStage
  cases h2 : ratioGE t₂ (phonePlausible M s).length s.length with
  | false =>
    cases h1 : ratioGE t₁ (phonePlausible M s).length s.length with
    | false =>
      simp [h1, h2]
      exact dateStage_mono M s h
    | true =>
      simp only [h1, h2, Bool.false_eq_true, if_true, if_false]
      cases hA : M.phonenumbersAvailable with
      | false =>
        simp only [hA, Bool.false_eq_true, if_false]
        exact le_trans (by simp [typeRank]) (dateStage_lb M s t₂)
      | true =>
        simp only [hA, if_true]
        cases hv1 : ratioGE t₁ (phoneValidOnes M s).length (phonePlausible M s).length with
        | true =>
          simp only [hv1, if_true]
          exact le_trans (by simp [typeRank]) (dateStage_lb M s t₂)
        | false =>
          simp only [hv1, Bool.false_eq_true, if_false]
          exact dateStage_mono M s h
  | true =>
    have h1 := ratioGE_antitone h h2
    simp only [h1, h2, if_true]
    cases hA : M.phonenumbersAvailable with
    | false => simp [hA]
    | true =>
      simp only [hA, if_true]
      cases hv2 : ratioGE t₂ (phoneValidOnes M s).length (phonePlausible M s).length with
      | true =>
        have hv1 := ratioGE_antitone h hv2
        simp [hv1, hv2]
      | false =>
        cases hv1 : ratioGE t₁ (phoneValidOnes M s).length (phonePlausible M s).length with
        | true =>
          simp only [hv1, hv2, Bool.false_eq_true, if_true, if_false]
          exact le_trans (by simp [typeRank]) (dateStage_lb M s t₂)
        | false =>
          simp [hv1, hv2]
          exact dateStage_mono M s h

/-- Raising the threshold moves the email stage result later. -/
theorem emailStage_mono (M : Matchers) (s : List String) {t₁ t₂ : ℚ}
    (h : t₁ ≤ t₂) :
    typeRank (detectEmailStage M s t₁).1 ≤ typeRank (detectEmailStage M s t₂).1 := by
  unfold detectEmailStage
  cases h2 : ratioGE t₂ (emailMatchesL M s).length s.length with
  | true =>
    have h1 := ratioGE_antitone h h2
    simp [h1, h2]
  | false =>
    cases h1 : ratioGE t₁ (emailMatchesL M s).length s.length with
    | true =>
      simp only [h1, h2, Bool.false_eq_true, if_true, if_false]
      exact le_trans (by simp [typeRank]) (phoneStage_lb M s t₂)
    | false =>
      simp [h1, h2]
      exact phoneStage_mono M s h

/-- Raising the threshold moves the url stage result later. -/
theorem urlStage_mono (M : Matchers) (s : List String) {t₁ t₂ : ℚ}
    (h : t₁ ≤ t₂) :
    typeRank (detectUrlStage M s t₁).1 ≤ typeRank (detectUrlStage M s t₂).1 := by
  unfold detectUrlStage
  cases h2 : ratioGE t₂ (urlMatchesL M s).length s.length with
  | true =>
    have h1 := ratioGE_antitone h h2
    simp [h1, h2]
  | false =>
    cases h1 : ratioGE t₁ (urlMatchesL M s).length s.length with
    | true =>
      simp only [h1, h2, Bool.false_eq_true, if_true, if_false]
      exact le_trans (by simp [typeRank]) (emailStage_lb M s t₂)
    | false =>
      simp [h1, h2]
      exact emailStage_mono M s h

/-- Claim C6: raising the classification threshold can only move the detected
type to a later entry of the priority order
url → email → phone → date → boolean → integer → float → string (or leave it
unchanged), never to an earlier one. -/
theorem claim_C6_threshold_monotonicity (M : Matchers) (raw : List Cell)
    (t₁ t₂ : ℚ) (h : t₁ ≤ t₂) :
    typeRank (detectSeries M raw t₁).1 ≤ typeRank (detectSeries M raw t₂).1 := by
  unfold detectSeries
  cases he : (cleanList raw).isEmpty with
  | true => simp [he]
  | false =>
    simp only [he, Bool.false_eq_true, if_false]
    exact urlStage_mono M (cleanList raw) h

/-- Claim C6 (witness): the monotonicity statement at thresholds 0 and 1 on a
concrete column (detected as url at threshold 0 and as string at 1). -/
theorem claim_C6_witness :
    ((0 : ℚ) ≤ 1) ∧
    typeRank (detectSeries trivialMatchers [Cell.text "hi"] 0).1 ≤
      typeRank (detectSeries trivialMatchers [Cell.text "hi"] 1).1 :=
  ⟨by decide,
    claim_C6_threshold_monotonicity trivialMatchers [Cell.text "hi"] 0 1 (by decide)⟩

/-! ### Format count floor (claim C8) -/

/-- A mapped nonempty list has at least one distinct signature. -/
theorem distinctCount_map_pos (f : String → String) (l : List String)
    (hl : l ≠ []) : 1 ≤ distinctCount (l.map f) := by
  unfold distinctCount
  have h1 : l.map f ≠ [] := by simpa using hl
  have h2 : (l.map f).dedup ≠ [] := by
    rw [Ne, List.dedup_eq_nil]
    exact h1
  exact List.length_pos.mpr h2

/-- A positive accepted ratio over a nonempty column forces a nonempty
match list. -/
theorem matches_ne_nil {t : ℚ} (ht : 0 < t) {l : List String} {n : Nat}
    (hn : 0 < n) (h : ratioGE t l.length n = true) : l ≠ [] := by
  intro hc
  subst hc
  simp only [List.length_nil] at h
  have := ratioGE_pos ht h hn
  omega

/-- The explicit-format fold returns a format string whenever its best count
is positive. -/
theorem bestExplicit_isSome (M : Matchers) (s : List String)
    (h : 0 < (bestExplicitFormat M s).2) :
    (bestExplicitFormat M s).1.isSome = true := by
  unfold bestExplicitFormat at h ⊢
  suffices H : ∀ (fmts : List String) (acc : Option String × Nat),
      (0 < acc.2 → acc.1.isSome = true) →
      0 < (fmts.foldl (fun best fmt =>
        let valid := s.countP (fun v => M.explicitDateParse fmt v)
        if valid > best.2 then (some fmt, valid) else best) acc).2 →
      (fmts.foldl (fun best fmt =>
        let valid := s.countP (fun v => M.explicitDateParse fmt v)
        if valid > best.2 then (some fmt, valid) else best) acc).1.isSome = true by
    exact H dateFormats (none, 0) (by simp) h
  intro fmts
  induction fmts with
  | nil => intro acc hacc hpos; exact hacc hpos
  | cons fmt fmts ih =>
    intro acc hacc hpos
    refine ih _ ?_ hpos
    dsimp only
    split
    · intro _; rfl
    · exact hacc

/-- `_detect_date_format` on a single auto-parseable value always finds a
format. -/
theorem singleDetect_isSome (M : Matchers) (x : String)
    (hx : M.autoDateParse x = true) :
    (detectDateFormatFull M [x]).isSome = true := by
  unfold detectDateFormatFull
  cases hb : ratioGE ratHalf (bestExplicitFormat M [x]).2 ([x] : List String).length with
  | true =>
    simp only [hb, if_true]
    have hpos : 0 < (bestExplicitFormat M [x]).2 := by
      by_contra hzero
      push_neg at hzero
      have hz : (bestExplicitFormat M [x]).2 = 0 := by omega
      rw [hz] at hb
      simp [ratioGE, ratHalf] at hb
    exact bestExplicit_isSome M [x] hpos
  | false =>
    have hv : dateParsed M [x] = [x] := by simp [dateParsed, hx]
    have hcond : ratioGE ratHalf (dateParsed M [x]).length ([x] : List String).length = true := by
      rw [hv]
      simp [ratioGE, ratHalf]
    have hsome : ∀ (P : Prop) (inst : Decidable P) (a b : String),
        (if P then some a else some b).isSome = true := by
      intro P inst a b
      split <;> rfl
    simp only [hb, Bool.false_eq_true, if_false, hcond, Bool.not_true]
    exact hsome _ _ _ _

/-- The date-stage sample always yields at least one counted format. -/
theorem dateSample_pos (M : Matchers) (s : List String) {t : ℚ} (ht : 0 < t)
    (hs : s ≠ []) (hr : ratioGE t (dateParsed M s).length s.length = true) :
    1 ≤ (((((dateParsed M s).take 100).map
        (fun x => detectDateFormatFull M [x])).dedup).filter Option.isSome).length := by
  have hlen : 0 < s.length := List.length_pos.mpr hs
  have hne : dateParsed M s ≠ [] := matches_ne_nil ht hlen hr
  obtain ⟨x, xs, hxx⟩ := List.exists_cons_of_ne_nil hne
  have hxmem : x ∈ dateParsed M s := by rw [hxx]; exact List.mem_cons_self x xs
  have hxparse : M.autoDateParse x = true := List.of_mem_filter hxmem
  have hxtake : x ∈ (dateParsed M s).take 100 := by
    rw [hxx]
    exact List.mem_cons_self x (xs.take 99)
  have hymem : detectDateFormatFull M [x] ∈
      ((dateParsed M s).take 100).map (fun y => detectDateFormatFull M [y]) :=
    List.mem_map_of_mem _ hxtake
  have hydedup : detectDateFormatFull M [x] ∈
      (((dateParsed M s).take 100).map (fun y => detectDateFormatFull M [y])).dedup :=
    List.mem_dedup.mpr hymem
  have hyfilter : detectDateFormatFull M [x] ∈
      ((((dateParsed M s).take 100).map
        (fun y => detectDateFormatFull M [y])).dedup).filter Option.isSome :=
    List.mem_filter.mpr ⟨hydedup, singleDetect_isSome M x hxparse⟩
  exact List.length_pos.mpr (List.ne_nil_of_mem hyfilter)

/-- Format-count floor for the float stage and the string fallback. -/
theorem floatStage_fc (M : Matchers) (s : List String) (t : ℚ) (hs : s ≠ []) :
    (0 < t → 1 ≤ ((detectFloatStage M s t).2.getD 1)) ∧
    ((detectFloatStage M s t).1 = some "email" → (detectFloatStage M s t).2 = none) ∧
    ((detectFloatStage M s t).1 = some "string" → (detectFloatStage M s t).2 = none) := by
  have hlen : 0 < s.length := List.length_pos.mpr hs
  unfold detectFloatStage
  cases hr : ratioGE t (floatMatchesL M s).length s.length with
  | true =>
    simp only [hr, if_true]
    refine ⟨?_, by simp, by simp⟩
    intro ht
    simp only [Option.getD_some]
    exact distinctCount_map_pos _ _ (matches_ne_nil ht hlen hr)
  | false =>
    simp only [hr, Bool.false_eq_true, if_false, hlen, if_pos]
    exact ⟨by simp, by simp, by simp⟩

/-- Format-count floor for the integer stage. -/
theorem intStage_fc (M : Matchers) (s : List String) (t : ℚ) (hs : s ≠ []) :
    (0 < t → 1 ≤ ((detectIntegerStage M s t).2.getD 1)) ∧
    ((detectIntegerStage M s t).1 = some "email" → (detectIntegerStage M s t).2 = none) ∧
    ((detectIntegerStage M s t).1 = some "string" → (detectIntegerStage M s t).2 = none) := by
  have hlen : 0 < s.length := List.length_pos.mpr hs
  unfold detectIntegerStage
  cases hr : ratioGE t (intMatchesL M s).length s.length with
  | true =>
    simp only [hr, if_true]
    refine ⟨?_, by simp, by simp⟩
    intro ht
    simp only [Option.getD_some]
    exact distinctCount_map_pos _ _ (matches_ne_nil ht hlen hr)
  | false =>
    simp only [hr, Bool.false_eq_true, if_false]
    exact floatStage_fc M s t hs

/-- Format-count floor for the boolean stage. -/
theorem boolStage_fc (M : Matchers) (s : List String) (t : ℚ) (hs : s ≠ []) :
    (0 < t → 1 ≤ ((detectBooleanStage M s t).2.getD 1)) ∧
    ((detectBooleanStage M s t).1 = some "email" → (detectBooleanStage M s t).2 = none) ∧
    ((detectBooleanStage M s t).1 = some "string" → (detectBooleanStage M s t).2 = none) := by
  have hlen : 0 < s.length := List.length_pos.mpr hs
  unfold detectBooleanStage
  cases hr : ratioGE t (boolMatchesL s).length s.length with
  | true =>
    simp only [hr, if_true]
    refine ⟨?_, by simp, by simp⟩
    intro ht
    simp only [Option.getD_some]
    exact distinctCount_map_pos _ _ (matches_ne_nil ht hlen hr)
  | false =>
    simp only [hr, Bool.false_eq_true, if_false]
    exact intStage_fc M s t hs

/-- Format-count floor for the date stage. -/
theorem dateStage_fc (M : Matchers) (s : List String) (t : ℚ) (hs : s ≠ []) :
    (0 < t → 1 ≤ ((detectDateStage M s t).2.getD 1)) ∧
    ((detectDateStage M s t).1 = some "email" → (detectDateStage M s t).2 = none) ∧
    ((detectDateStage M s t).1 = some "string" → (detectDateStage M s t).2 = none) := by
  unfold detectDateStage
  cases hg : (detectDateFormatFull M s).isSome with
  | false =>
    simp only [hg, Bool.false_eq_true, if_false]
    exact boolStage_fc M s t hs
  | true =>
    cases hr : ratioGE t (dateParsed M s).length s.length with
    | true =>
      simp only [hg, hr, if_true]
      refine ⟨?_, by simp, by simp⟩
      intro ht
      simp only [Option.getD_some]
      exact dateSample_pos M s ht hs hr
    | false =>
      simp only [hg, hr, Bool.false_eq_true, if_true, if_false]
      exact boolStage_fc M s t hs

/-- Format-count floor for the phone stage. -/
theorem phoneStage_fc (M : Matchers) (s : List String) (t : ℚ) (hs : s ≠ []) :
    (0 < t → 1 ≤ ((detectPhoneStage M s t).2.getD 1)) ∧
    ((detectPhoneStage M s t).1 = some "email" → (detectPhoneStage M s t).2 = none) ∧
    ((detectPhoneStage M s t).1 = some "string" → (detectPhoneStage M s t).2 = none) := by
  have hlen : 0 < s.length := List.length_pos.mpr hs
  unfold detectPhoneStage
  cases hr : ratioGE t (phonePlausible M s).length s.length with
  | false =>
    simp only [hr, Bool.false_eq_true, if_false]
    exact dateStage_fc M s t hs
  | true =>
    simp only [hr, if_true]
    cases hA : M.phonenumbersAvailable with
    | false =>
      simp only [hA, Bool.false_eq_true, if_false]
      refine ⟨?_, by simp, by simp⟩
      intro ht
      simp only [Option.getD_some]
      exact distinctCount_map_pos _ _ (matches_ne_nil ht hlen hr)
    | true =>
      simp only [hA, if_true]
      cases hv : ratioGE t (phoneValidOnes M s).length (phonePlausible M s).length with
      | false =>
        simp only [hv, Bool.false_eq_true, if_false]
        exact dateStage_fc M s t hs
      | true =>
        simp only [hv, if_true]
        refine ⟨?_, by simp, by simp⟩
        intro ht
        have hpm : 0 < (phonePlausible M s).length :=
          ratioGE_pos ht hr hlen
        simp only [Option.getD_some]
        exact distinctCount_map_pos _ _ (matches_ne_nil ht hpm hv)

/-- Format-count floor for the email stage. -/
theorem emailStage_fc (M : Matchers) (s : List String) (t : ℚ) (hs : s ≠ []) :
    (0 < t → 1 ≤ ((detectEmailStage M s t).2.getD 1)) ∧
    ((detectEmailStage M s t).1 = some "email" → (detectEmailStage M s t).2 = none) ∧
    ((detectEmailStage M s t).1 = some "string" → (detectEmailStage M s t).2 = none) := by
  unfold detectEmailStage
  cases hr : ratioGE t (emailMatchesL M s).length s.length with
  | true => simp [hr]
  | false =>
    simp only [hr, Bool.false_eq_true, if_false]
    exact phoneStage_fc M s t hs

/-- Format-count floor for the url stage. -/
theorem urlStage_fc (M : Matchers) (s : List String) (t : ℚ) (hs : s ≠ []) :
    (0 < t → 1 ≤ ((detectUrlStage M s t).2.getD 1)) ∧
    ((detectUrlStage M s t).1 = some "email" → (detectUrlStage M s t).2 = none) ∧
    ((detectUrlStage M s t).1 = some "string" → (detectUrlStage M s t).2 = none) := by
  have hlen : 0 < s.length := List.length_pos.mpr hs
  unfold detectUrlStage
  cases hr : ratioGE t (urlMatchesL M s).length s.length with
  | true =>
    simp only [hr, if_true]
    refine ⟨?_, by simp, by simp⟩
    intro ht
    simp only [Option.getD_some]
    exact distinctCount_map_pos _ _ (matches_ne_nil ht hlen hr)
  | false =>
    simp only [hr, Bool.false_eq_true, if_false]
    exact emailStage_fc M s t hs

/-- Claim C8 (counterexample): at threshold 0 the url gate accepts with an
empty match set, so the classifier reports `format_count = 0` — the claimed
floor `format_count >= 1` fails for that threshold. -/
theorem claim_C8_counterexample :
    ¬ (1 ≤ (analyzeColumn trivialMatchers [Cell.text "hello"] 0).format_count) := by
  decide

/-- Claim C8 (amended): for every strictly positive threshold the classifier
reports `format_count >= 1`, and a column classified as email or string
reports `format_count = 1` at every threshold. -/
theorem claim_C8_amended (M : Matchers) (raw : List Cell) (t : ℚ) :
    (0 < t → 1 ≤ (analyzeColumn M raw t).format_count) ∧
    ((analyzeColumn M raw t).type = "email" ∨ (analyzeColumn M raw t).type = "string" →
      (analyzeColumn M raw t).format_count = 1) := by
  unfold analyzeColumn detectSeries
  cases he : (cleanList raw).isEmpty with
  | true => simp [he]
  | false =>
    simp only [he, Bool.false_eq_true, if_false]
    have hs : cleanList raw ≠ [] := by
      intro hc
      rw [hc] at he
      simp at he
    have hfc := urlStage_fc M (cleanList raw) t hs
    rcases hr : detectUrlStage M (cleanList raw) t with ⟨tyOpt, fc⟩
    rw [hr] at hfc
    cases tyOpt with
    | none => simp
    | some ty =>
      simp only
      constructor
      · intro ht
        exact hfc.1 ht
      · intro hty
        rcases hty with hty | hty
        · have hn := hfc.2.1 (by rw [hty])
          simp only at hn
          rw [hn]
          rfl
        · have hn := hfc.2.2 (by rw [hty])
          simp only at hn
          rw [hn]
          rfl

/-- Claim C8 (witness): the amended statement instantiated at threshold 1 on
a concrete column, with both the floor and the string clause discharged. -/
theorem claim_C8_witness :
    ((0 : ℚ) < 1) ∧
    1 ≤ (analyzeColumn trivialMatchers [Cell.text "hi"] 1).format_count ∧
    (analyzeColumn trivialMatchers [Cell.text "hi"] 1).format_count = 1 :=
  ⟨by decide,
    (claim_C8_amended trivialMatchers [Cell.text "hi"] 1).1 (by decide),
    (claim_C8_amended trivialMatchers [Cell.text "hi"] 1).2 (Or.inr (by decide))⟩

/-- Claim C7: the reconciliation format summary does NOT force the
destination format count of a uniformly valid phone column to 1: the same
`_calculate_column_formats` (which has no destination/source flag) is used
for both sides, and on a destination column holding valid phone numbers in
two layouts it reports `export_format_count = 2`, exactly like the source
side. -/
theorem claim_C7_no_phone_collapse :
    ((calcColumnComparisonStats phoneMatchers tblPhone cmPQ ∅).1).export_data_type =
      some "phone" ∧
    ((calcColumnComparisonStats phoneMatchers tblPhone cmPQ ∅).1).export_format_count = 2 ∧
    ((calcColumnComparisonStats phoneMatchers tblPhone cmPQ ∅).1).crm_format_count = 2 := by
  decide

end NfsDq
